import Mathlib

/-!
Verification of the tenant-isolated authorization and audit layer of a
multi-tenant sales CRM.  The definitions below are a shallow embedding of
the TypeScript source: `src/lib/database.ts` (tenant-scoping, pagination,
audit logging), `src/lib/auth.ts` (token service, permission model, user
lookup) and `src/app/api/accounts/route.ts` (the accounts request
handlers).  JavaScript objects appearing in query descriptors are embedded
as association lists with spread-with-override semantics; machine-level
details that the claims do not touch (crypto internals of bcrypt/jwt, the
SQL engine) are replaced by executable idealized models.
-/

namespace CRM

/-- Scalar (and one structured) values appearing in query descriptors and
rows.  `orContains` embeds the Prisma fragment
`OR: [ \x7b f: \x7b contains: q, mode: insensitive \x7d \x7d, ... ]`
built by the accounts GET handler for free-text search. -/
inductive Val where
  | str (s : String)
  | bool (b : Bool)
  | int (n : Int)
  | orContains (fields : List String) (q : String)
  deriving DecidableEq

/-- A JavaScript object with scalar fields, as an association list. -/
abbrev Obj := List (String × Val)

/-- `objSet o k v` models the spread `\x7b ...o, k: v \x7d`: every binding of
`o` other than `k` is kept, and `k` is bound to `v`. -/
def objSet (o : Obj) (k : String) (v : Val) : Obj :=
  (o.filter (fun p => p.1 ≠ k)) ++ [(k, v)]

/-- Property lookup `o[k]`, `none` standing for JavaScript `undefined`. -/
def objGet (o : Obj) (k : String) : Option Val :=
  (o.find? (fun p => p.1 = k)).map (·.2)

/-- A base Prisma query descriptor passed to `withTenantFilter`: its
`where` object plus the remaining top-level fields (include/orderBy/...),
which the function spreads through unchanged. -/
structure BaseQuery where
  whereClause : Obj
  other : Obj
  deriving DecidableEq

/-- `withTenantFilter` from `src/lib/database.ts`:
returns `\x7b ...baseQuery, where: \x7b ...baseQuery.where, tenantId \x7d \x7d`. -/
def withTenantFilter (tenantId : String) (baseQuery : BaseQuery) : BaseQuery :=
  { baseQuery with
    whereClause := objSet baseQuery.whereClause "tenantId" (Val.str tenantId) }

/-- A database row of a tenant-scoped table (e.g. an account).  The columns
every such table shares are explicit; the remaining columns live in
`fields`.  Timestamps are integers (epoch seconds). -/
structure Row where
  id : String
  tenantId : String
  isActive : Bool
  createdAt : Int
  updatedAt : Int
  fields : Obj
  deriving DecidableEq

/-- Column access on a row, by field name. -/
def rowGet (r : Row) : String → Option Val
  | "id" => some (Val.str r.id)
  | "tenantId" => some (Val.str r.tenantId)
  | "isActive" => some (Val.bool r.isActive)
  | "createdAt" => some (Val.int r.createdAt)
  | "updatedAt" => some (Val.int r.updatedAt)
  | k => objGet r.fields k

/-- `sub` occurs somewhere inside `s`. -/
def strContains (s sub : String) : Bool :=
  (List.range (s.length + 1)).any (fun i => sub.isPrefixOf (s.drop i))

/-- One where-clause binding, evaluated on a row: the Prisma `OR` of
case-insensitive `contains` filters matches if any listed field does;
every other binding is an equality test on the named column. -/
def valMatches (r : Row) (k : String) (v : Val) : Bool :=
  match v with
  | Val.orContains fields q =>
    fields.any (fun f =>
      match rowGet r f with
      | some (Val.str s) => strContains s.toLower q.toLower
      | _ => false)
  | v => decide (rowGet r k = some v)

/-- A row satisfies a where-object when it satisfies every binding. -/
def matchesWhere (w : Obj) (r : Row) : Bool :=
  w.all (fun kv => valMatches r kv.1 kv.2)

/-- Order keys accepted by the embedded `findMany`; the source only ever
passes `\x7b createdAt: desc \x7d` or `\x7b updatedAt: desc \x7d`. -/
inductive OrderBy where
  | createdAtDesc
  | updatedAtDesc
  deriving DecidableEq

def sortKey : OrderBy → Row → Int
  | OrderBy.createdAtDesc, r => r.createdAt
  | OrderBy.updatedAtDesc, r => r.updatedAt

/-- Insert into a descending-sorted list, keeping it descending. -/
def insertDesc (k : Row → Int) (r : Row) : List Row → List Row
  | [] => [r]
  | x :: xs => if k x ≤ k r then r :: x :: xs else x :: insertDesc k r xs

/-- Insertion sort, descending by `k`. -/
def sortDesc (k : Row → Int) : List Row → List Row
  | [] => []
  | x :: xs => insertDesc k x (sortDesc k xs)

/-- The store's `findMany`: filter by the where-object, order, then apply
`skip`/`take`.  (Negative `skip`/`take` values do not arise in the claims;
`Int.toNat` clamps them at zero.) -/
def findMany (db : List Row) (w : Obj) (orderBy : OrderBy) (skip take : Int) :
    List Row :=
  (((sortDesc (sortKey orderBy) (db.filter (fun r => matchesWhere w r)))).drop
    skip.toNat).take take.toNat

/-- The store's `count`: how many rows satisfy the where-object. -/
def countWhere (db : List Row) (w : Obj) : Nat :=
  (db.filter (fun r => matchesWhere w r)).length

/-- JavaScript `x || d` on an optional number: `undefined` and `0` are
falsy and yield the default. -/
def jsOr (x : Option Int) (d : Int) : Int :=
  match x with
  | none => d
  | some v => if v = 0 then d else v

/-- `Math.ceil(a / b)` for a non-negative integer `a` and integer `b ≠ 0`. -/
def ceilDiv (a : Nat) (b : Int) : Int :=
  if 0 < b then Int.ofNat ((a + (b.toNat - 1)) / b.toNat)
  else -(Int.ofNat (a / b.natAbs))

/-- The `params` argument of `paginate`: optional page and limit, plus the
optional query parts the caller may pass (`include` is irrelevant to the
claims and omitted). -/
structure PaginateParams where
  page : Option Int
  limit : Option Int
  whereClause : Obj
  orderBy : Option OrderBy
  deriving DecidableEq

structure Meta where
  page : Int
  limit : Int
  total : Nat
  totalPages : Int
  hasNext : Bool
  hasPrev : Bool
  deriving DecidableEq

structure PaginatedResult where
  data : List Row
  meta : Meta
  deriving DecidableEq

/-- The where-object `paginate` builds:
`\x7b ...params.where, tenantId, isActive: true \x7d`. -/
def paginateWhere (whereClause : Obj) (tenantId : String) : Obj :=
  objSet (objSet whereClause "tenantId" (Val.str tenantId)) "isActive" (Val.bool true)

/-- `paginate` from `src/lib/database.ts`: defaults `page` to 1 and `limit`
to 10, caps `limit` at 100, computes `skip = (page - 1) * limit`, injects
the tenant/active predicate, queries data and count, and assembles the
meta block with `totalPages = Math.ceil(total / limit)`. -/
def paginate (db : List Row) (params : PaginateParams) (tenantId : String) :
    PaginatedResult :=
  let page := jsOr params.page 1
  let limit := min (jsOr params.limit 10) 100
  let skip := (page - 1) * limit
  let w := paginateWhere params.whereClause tenantId
  let data := findMany db w (params.orderBy.getD OrderBy.createdAtDesc) skip limit
  let total := countWhere db w
  let totalPages := ceilDiv total limit
  { data := data,
    meta :=
      { page := page, limit := limit, total := total, totalPages := totalPages,
        hasNext := decide (page < totalPages), hasPrev := decide (1 < page) } }

/-- The claim set carried by a session token (`TokenPayload` in
`src/lib/auth.ts`). -/
structure TokenPayload where
  userId : String
  tenantId : String
  roleId : String
  email : String
  deriving DecidableEq

/-- Modelled from the spec: the signature of a signed token, as an
idealized unforgeable MAC over the payload, the expiry and the server
secret (the `jsonwebtoken` library is an external collaborator; §4.1
describes it as signing the claim-set with a server-held secret). -/
structure Sig where
  secret : String
  payload : TokenPayload
  exp : Int
  deriving DecidableEq

/-- Modelled from the spec: a presented bearer token is either a
well-formed signed token or an arbitrary malformed string. -/
inductive Token where
  | signed (payload : TokenPayload) (exp : Int) (sig : Sig)
  | malformed (raw : String)
  deriving DecidableEq

inductive JwtError where
  | malformed
  | badSignature
  | expired
  deriving DecidableEq

/-- Modelled from the spec: `jwt.sign(payload, secret, expiresIn)` —
encodes the claims, sets `exp = issuedAt + lifetime`, signs. -/
def jwtSign (secret : String) (payload : TokenPayload)
    (issuedAt lifetime : Int) : Token :=
  Token.signed payload (issuedAt + lifetime)
    { secret := secret, payload := payload, exp := issuedAt + lifetime }

/-- Modelled from the spec: `jwt.verify(token, secret)` at clock time
`now` — rejects malformed tokens, wrong signatures, and tokens whose
expiry has passed (`now ≥ exp`); otherwise returns the payload. -/
def jwtVerify (secret : String) (now : Int) : Token → Except JwtError TokenPayload
  | Token.malformed _ => Except.error JwtError.malformed
  | Token.signed payload exp sig =>
    if sig ≠ { secret := secret, payload := payload, exp := exp } then
      Except.error JwtError.badSignature
    else if exp ≤ now then Except.error JwtError.expired
    else Except.ok payload

/-- The committed development fallback of `JWT_SECRET`. -/
def JWT_SECRET : String := "your-secret-key-change-in-production"

/-- The default token lifetime (`'24h'`), in seconds. -/
def JWT_EXPIRES_IN : Int := 24 * 60 * 60

/-- `generateToken` from `src/lib/auth.ts`:
`jwt.sign(payload, JWT_SECRET, \x7b expiresIn: JWT_EXPIRES_IN \x7d)`. -/
def generateToken (issuedAt : Int) (payload : TokenPayload) : Token :=
  jwtSign JWT_SECRET payload issuedAt JWT_EXPIRES_IN

/-- `verifyToken` from `src/lib/auth.ts`: `jwt.verify` inside a
try/catch whose catch throws the single generic error. -/
def verifyToken (now : Int) (token : Token) : Except String TokenPayload :=
  match jwtVerify JWT_SECRET now token with
  | Except.ok payload => Except.ok payload
  | Except.error _ => Except.error "Invalid or expired token"

/-- A role's permission set: a JSON object mapping resource names to
arrays of action names (wildcard stands for itself as the string `*`). -/
abbrev PermSet := List (String × List String)

/-- Property lookup `permissions[resource]`. -/
def permLookup (perms : PermSet) (resource : String) : Option (List String) :=
  (perms.find? (fun p => p.1 = resource)).map (·.2)

/-- `hasPermission` from `src/lib/auth.ts`.  `none` models a
null/undefined `userPermissions` argument. -/
def hasPermission (userPermissions : Option PermSet)
    (resource action : String) : Bool :=
  match userPermissions with
  | none => false
  | some perms =>
    -- Super admin has all permissions
    let starAllows :=
      match permLookup perms "*" with
      | some star => star.contains "*"
      | none => false
    if starAllows then true
    else
      -- Check specific resource permissions
      match permLookup perms resource with
      | none => false
      | some resourcePermissions =>
        resourcePermissions.contains action || resourcePermissions.contains "*"

/-- A role row (`role` relation included by the user queries). -/
structure Role where
  id : String
  name : String
  permissions : Option PermSet
  deriving DecidableEq

/-- A user row of the store. -/
structure User where
  id : String
  email : String
  firstName : Option String
  lastName : Option String
  tenantId : String
  roleId : Option String
  passwordHash : Option String
  isActive : Bool
  role : Option Role
  deriving DecidableEq

/-- `AuthUser` from `src/lib/auth.ts`. -/
structure AuthUser where
  id : String
  email : String
  firstName : Option String
  lastName : Option String
  tenantId : String
  roleId : Option String
  role : Option Role
  deriving DecidableEq

/-- `getUserByToken` from `src/lib/auth.ts`: verify the token, then
`findFirst` a user with the claimed id AND the claimed tenant AND
`isActive: true`; any verification error is caught and yields `null`. -/
def getUserByToken (db : List User) (now : Int) (token : Token) :
    Option AuthUser :=
  match verifyToken now token with
  | Except.error _ => none
  | Except.ok payload =>
    match db.find? (fun u =>
        decide (u.id = payload.userId) &&
        decide (u.tenantId = payload.tenantId) && u.isActive) with
    | none => none
    | some user =>
      some { id := user.id, email := user.email, firstName := user.firstName,
             lastName := user.lastName, tenantId := user.tenantId,
             roleId := user.roleId, role := user.role }

/-- `canAccessResource` from `src/lib/auth.ts`. -/
def canAccessResource (user : AuthUser) (resource action : String) : Bool :=
  match user.role with
  | none => false
  | some role => hasPermission role.permissions resource action

/-- JavaScript `x || d` on an optional string: `null`/`undefined` and the
empty string are falsy and yield the default. -/
def jsOrStr (x : Option String) (d : String) : String :=
  match x with
  | none => d
  | some v => if v = "" then d else v

def jsonStringifyVal : Val → String
  | Val.str s => "\"" ++ s ++ "\""
  | Val.bool b => if b then "true" else "false"
  | Val.int n => toString n
  | Val.orContains _ _ => "\x7b\x7d"

/-- `JSON.stringify` on a flat object, as used for audit snapshots. -/
def jsonStringify (o : Obj) : String :=
  "\x7b" ++
    String.intercalate ","
      (o.map (fun kv => "\"" ++ kv.1 ++ "\":" ++ jsonStringifyVal kv.2)) ++
    "\x7d"

/-- The named-argument object accepted by `createAuditLog`. -/
structure AuditLogInput where
  tenantId : String
  userId : Option String
  action : String
  resourceType : String
  resourceId : Option String
  beforeData : Option Obj
  afterData : Option Obj
  ipAddress : Option String
  userAgent : Option String
  deriving DecidableEq

/-- The row handed to `prisma.auditLog.create`. -/
structure AuditEntry where
  tenantId : String
  userId : Option String
  action : String
  resourceType : String
  resourceId : Option String
  beforeData : Option String
  afterData : Option String
  ipAddress : Option String
  userAgent : Option String
  deriving DecidableEq

/-- `createAuditLog` from `src/lib/database.ts`.  The audit store's append
is an arbitrary function `append` (any behaviour of the store, including
failure); the source wraps the append in try/catch, logs the error, and
deliberately does not rethrow. -/
def createAuditLog (append : AuditEntry → Except String Unit)
    (input : AuditLogInput) : Except String Unit :=
  match append
      { tenantId := input.tenantId, userId := input.userId,
        action := input.action, resourceType := input.resourceType,
        resourceId := input.resourceId,
        beforeData := input.beforeData.map jsonStringify,
        afterData := input.afterData.map jsonStringify,
        ipAddress := input.ipAddress, userAgent := input.userAgent } with
  | Except.ok _ => Except.ok ()
  | Except.error _ => Except.ok () -- console.error, then swallowed

/-- `authenticate` from `src/app/api/accounts/route.ts`: extract the
bearer token, reject when absent, look the user up by token. -/
def authenticate (db : List User) (now : Int) (token : Option Token) :
    Except String AuthUser :=
  match token with
  | none => Except.error "Authentication required"
  | some t =>
    match getUserByToken db now t with
    | none => Except.error "Invalid token"
    | some user => Except.ok user

/-- A GET /api/accounts request: the bearer token (if any) and the query
parameters after `parseInt(... || '1')` / `searchParams.get(...) || ''`
defaulting. -/
structure GetRequest where
  token : Option Token
  page : Int
  limit : Int
  search : String
  industry : String
  accountType : String
  ownerId : String
  deriving DecidableEq

/-- The where-object built by the GET handler from the filter params. -/
def buildAccountsWhere (req : GetRequest) : Obj :=
  let w : Obj := [("isActive", Val.bool true)]
  let w := if req.search ≠ "" then
      objSet w "OR" (Val.orContains ["name", "website", "city"] req.search)
    else w
  let w := if req.industry ≠ "" then objSet w "industry" (Val.str req.industry)
    else w
  let w := if req.accountType ≠ "" then
      objSet w "accountType" (Val.str req.accountType)
    else w
  let w := if req.ownerId ≠ "" then objSet w "ownerId" (Val.str req.ownerId)
    else w
  w

/-- The pagination params the GET handler passes to `paginate` (its
`include` block is irrelevant to the claims). -/
def accountsGetParams (req : GetRequest) : PaginateParams :=
  { page := some req.page, limit := some req.limit,
    whereClause := buildAccountsWhere req,
    orderBy := some OrderBy.updatedAtDesc }

inductive GetResponse where
  | ok (result : PaginatedResult)
  | unauthorized (msg : String)
  | forbidden
  | serverError
  deriving DecidableEq

/-- `GET` of `src/app/api/accounts/route.ts`: authenticate, build the
filter, run the tenant-scoped paginated query; authentication errors map
to 401 responses in the catch block. -/
def accountsGET (db : List User) (accounts : List Row) (now : Int)
    (req : GetRequest) : GetResponse :=
  match authenticate db now req.token with
  | Except.error msg => GetResponse.unauthorized msg
  | Except.ok user =>
    GetResponse.ok (paginate accounts (accountsGetParams req) user.tenantId)

/-- A POST /api/accounts body before schema validation. -/
structure AccountBody where
  name : String
  ownerId : Option String
  fields : Obj
  deriving DecidableEq

/-- The `createAccountSchema.parse` check relevant here:
`name: z.string().min(1)`. -/
def parseCreateAccount (b : AccountBody) : Except String AccountBody :=
  if 1 ≤ b.name.length then Except.ok b
  else Except.error "Account name is required"

structure PostRequest where
  token : Option Token
  body : AccountBody
  ipAddress : Option String
  userAgent : Option String
  deriving DecidableEq

/-- The account row `prisma.account.create` produces for the POST handler:
tenant from the caller's token-derived user, `ownerId: data.ownerId ||
user.id`, store-side id and timestamps. -/
def mkAccount (newId : String) (now : Int) (data : AccountBody)
    (user : AuthUser) : Row :=
  { id := newId, tenantId := user.tenantId, isActive := true,
    createdAt := now, updatedAt := now,
    fields := objSet (objSet data.fields "name" (Val.str data.name)) "ownerId"
      (Val.str (jsOrStr data.ownerId user.id)) }

def rowToObj (r : Row) : Obj :=
  [("id", Val.str r.id), ("tenantId", Val.str r.tenantId),
   ("isActive", Val.bool r.isActive), ("createdAt", Val.int r.createdAt),
   ("updatedAt", Val.int r.updatedAt)] ++ r.fields

inductive PostResponse where
  | created (account : Row)
  | badRequest (msg : String)
  | unauthorized (msg : String)
  | forbidden
  | serverError
  deriving DecidableEq

/-- `POST` of `src/app/api/accounts/route.ts`: authenticate, validate the
body, create the account, append the audit entry, return 201.  In its
catch block only errors whose message contains `Authentication` map to
401; every other thrown error (including `Invalid token`) falls through
to the generic 500. -/
def accountsPOST (db : List User) (now : Int) (req : PostRequest)
    (newId : String) (append : AuditEntry → Except String Unit) :
    PostResponse :=
  match authenticate db now req.token with
  | Except.error msg =>
    if strContains msg "Authentication" then PostResponse.unauthorized msg
    else PostResponse.serverError
  | Except.ok user =>
    match parseCreateAccount req.body with
    | Except.error msg => PostResponse.badRequest msg
    | Except.ok data =>
      let account := mkAccount newId now data user
      let _ := createAuditLog append
        { tenantId := user.tenantId, userId := some user.id,
          action := "CREATE", resourceType := "account",
          resourceId := some account.id, beforeData := none,
          afterData := some (rowToObj account),
          ipAddress := some (jsOrStr req.ipAddress "unknown"),
          userAgent := some (jsOrStr req.userAgent "unknown") }
      PostResponse.created account

/-- Response classifier: did the GET handler reach the data operation and
answer 200? -/
def isOkResponse : GetResponse → Bool
  | GetResponse.ok _ => true
  | _ => false

/-- The contract of `paginate` for explicit page `p ≥ 1` and limit
`l ≥ 1`: the effective limit is `min l 100` and lies in `[1, 100]`, the
result skips `(p-1)·limit` rows of the ordered tenant-scoped match set
and holds at most `limit` of them, and the meta block satisfies
`totalPages = ceil(total/limit)`, `hasNext = (page < totalPages)`,
`hasPrev = (page > 1)`. -/
def paginateContract (db : List Row) (params : PaginateParams) (t : String)
    (p l : Int) : Prop :=
  (paginate db params t).meta.page = p ∧
  (paginate db params t).meta.limit = min l 100 ∧
  1 ≤ (paginate db params t).meta.limit ∧
  (paginate db params t).meta.limit ≤ 100 ∧
  (paginate db params t).data.length ≤ (paginate db params t).meta.limit.toNat ∧
  (paginate db params t).data =
    ((sortDesc (sortKey (params.orderBy.getD OrderBy.createdAtDesc))
        (db.filter (fun row => matchesWhere (paginateWhere params.whereClause t) row))).drop
      (((paginate db params t).meta.page - 1) * (paginate db params t).meta.limit).toNat).take
      (paginate db params t).meta.limit.toNat ∧
  (paginate db params t).meta.total =
    countWhere db (paginateWhere params.whereClause t) ∧
  (paginate db params t).meta.totalPages =
    ceilDiv (paginate db params t).meta.total (paginate db params t).meta.limit ∧
  ((paginate db params t).meta.hasNext = true ↔
    (paginate db params t).meta.page < (paginate db params t).meta.totalPages) ∧
  ((paginate db params t).meta.hasPrev = true ↔
    1 < (paginate db params t).meta.page)

/-! Concrete fixtures used by witnesses and counterexamples. -/

def payload0 : TokenPayload :=
  { userId := "u1", tenantId := "t1", roleId := "r1", email := "a@b.c" }

/-- A role that grants nothing: the permission model denies every
resource/action pair for it. -/
def role0 : Role := { id := "r1", name := "NoAccess", permissions := some [] }

def user0 : User :=
  { id := "u1", email := "a@b.c", firstName := none, lastName := none,
    tenantId := "t1", roleId := some "r1", passwordHash := none,
    isActive := true, role := some role0 }

def authUser0 : AuthUser :=
  { id := "u1", email := "a@b.c", firstName := none, lastName := none,
    tenantId := "t1", roleId := some "r1", role := some role0 }

def token0 : Token := generateToken 0 payload0

/-- An account created at time 2 but last updated at time 1. -/
def rowA : Row :=
  { id := "A", tenantId := "t1", isActive := true, createdAt := 2,
    updatedAt := 1, fields := [] }

/-- An account created at time 1 but last updated at time 2. -/
def rowB : Row :=
  { id := "B", tenantId := "t1", isActive := true, createdAt := 1,
    updatedAt := 2, fields := [] }

def mkRow (i : Nat) : Row :=
  { id := toString i, tenantId := "t1", isActive := true,
    createdAt := Int.ofNat i, updatedAt := Int.ofNat i, fields := [] }

/-- 25 active rows of tenant `t1`. -/
def db25 : List Row := (List.range 25).map mkRow

def pageParams3 : PaginateParams :=
  { page := some 3, limit := some 10, whereClause := [], orderBy := none }

def negLimitParams : PaginateParams :=
  { page := some 1, limit := some (-5), whereClause := [], orderBy := none }

def defaultOrderParams : PaginateParams :=
  { page := some 1, limit := some 10, whereClause := [], orderBy := none }

/-- A GET request bearing a valid token of the permissionless user. -/
def denyReq : GetRequest :=
  { token := some token0, page := 1, limit := 10, search := "",
    industry := "", accountType := "", ownerId := "" }

def reqNoToken : GetRequest :=
  { token := none, page := 1, limit := 10, search := "", industry := "",
    accountType := "", ownerId := "" }

def postNoToken : PostRequest :=
  { token := none, body := { name := "X", ownerId := none, fields := [] },
    ipAddress := none, userAgent := none }

/-! Supporting lemmas. -/

theorem objGet_objSet_self (o : Obj) (k : String) (v : Val) :
    objGet (objSet o k v) k = some v := by
  have h1 : (o.filter (fun p => p.1 ≠ k)).find? (fun p => p.1 = k) = none := by
    rw [List.find?_eq_none]
    intro x hx
    have hx2 := (List.mem_filter.mp hx).2
    simp at hx2
    simpa using hx2
  simp [objGet, objSet, List.find?_append, h1, List.find?]

theorem objGet_objSet_ne (o : Obj) (k k' : String) (v : Val) (hk : k' ≠ k) :
    objGet (objSet o k v) k' = objGet o k' := by
  have hk2 : ¬(k = k') := fun h => hk h.symm
  have h2 : (fun a : String × Val => !decide (a.1 = k) && decide (a.1 = k')) =
      (fun a : String × Val => decide (a.1 = k')) := by
    funext a
    by_cases hq : a.1 = k'
    · simp [hq, hk]
    · simp [hq]
  simp [objGet, objSet, List.find?_append, List.find?, hk2, h2]

theorem objGet_some_mem {o : Obj} {k : String} {v : Val}
    (h : objGet o k = some v) : (k, v) ∈ o := by
  unfold objGet at h
  rcases Option.map_eq_some'.mp h with ⟨pr, hfind, hv⟩
  have h1 := List.find?_some hfind
  have h2 := List.mem_of_find?_eq_some hfind
  have hk : pr.1 = k := by simpa using h1
  rw [← hk, ← hv]
  simpa using h2

theorem matchesWhere_mem {w : Obj} {r : Row} {kv : String × Val}
    (hm : matchesWhere w r = true) (hkv : kv ∈ w) :
    valMatches r kv.1 kv.2 = true := by
  rw [matchesWhere, List.all_eq_true] at hm
  exact hm kv hkv

theorem rowGet_tenantId (r : Row) :
    rowGet r "tenantId" = some (Val.str r.tenantId) := rfl

theorem mem_insertDesc {k : Row → Int} {r x : Row} {l : List Row} :
    x ∈ insertDesc k r l ↔ x = r ∨ x ∈ l := by
  induction l with
  | nil => simp [insertDesc]
  | cons y ys ih =>
    by_cases h : k y ≤ k r
    · simp [insertDesc, h]
    · simp only [insertDesc, h, if_false, List.mem_cons, ih]
      tauto

theorem mem_sortDesc {k : Row → Int} {x : Row} {l : List Row} :
    x ∈ sortDesc k l ↔ x ∈ l := by
  induction l with
  | nil => simp [sortDesc]
  | cons y ys ih =>
    rw [sortDesc, mem_insertDesc]
    simp [ih]

theorem pairwise_insertDesc {k : Row → Int} {r : Row} {l : List Row}
    (hl : l.Pairwise (fun a b => k b ≤ k a)) :
    (insertDesc k r l).Pairwise (fun a b => k b ≤ k a) := by
  induction l with
  | nil => simp [insertDesc]
  | cons y ys ih =>
    rcases List.pairwise_cons.mp hl with ⟨hy, hys⟩
    by_cases h : k y ≤ k r
    · rw [insertDesc, if_pos h]
      refine List.pairwise_cons.mpr ⟨?_, hl⟩
      intro b hb
      rcases List.mem_cons.mp hb with rfl | hb
      · exact h
      · exact le_trans (hy b hb) h
    · rw [insertDesc, if_neg h]
      refine List.pairwise_cons.mpr ⟨?_, ih hys⟩
      intro b hb
      rcases mem_insertDesc.mp hb with rfl | hb
      · exact le_of_not_le h
      · exact hy b hb

theorem pairwise_sortDesc (k : Row → Int) (l : List Row) :
    (sortDesc k l).Pairwise (fun a b => k b ≤ k a) := by
  induction l with
  | nil => simp [sortDesc]
  | cons x xs ih =>
    rw [sortDesc]
    exact pairwise_insertDesc ih

theorem pairwise_findMany (db : List Row) (w : Obj) (ob : OrderBy)
    (s t : Int) :
    (findMany db w ob s t).Pairwise
      (fun a b => sortKey ob b ≤ sortKey ob a) := by
  have h := pairwise_sortDesc (sortKey ob) (db.filter (fun r => matchesWhere w r))
  have hsub : List.Sublist (findMany db w ob s t)
      (sortDesc (sortKey ob) (db.filter (fun r => matchesWhere w r))) := by
    unfold findMany
    exact (List.take_sublist _ _).trans (List.drop_sublist _ _)
  exact h.sublist hsub

/-! Claim theorems. -/

/-- C1: for every caller tenant id `t` and every base query descriptor —
including one whose where-clause itself specifies a different tenant id —
the queries produced by the tenant-scoping layer (`withTenantFilter` and
`paginate`) bind the where-clause's `tenantId` field to exactly the
server-derived argument `t`, never a value taken from the base query; and
every row `paginate` returns belongs to tenant `t`. -/
theorem tenant_filter_forces_token_tenant (t : String) (q : BaseQuery)
    (db : List Row) (params : PaginateParams) :
    objGet (withTenantFilter t q).whereClause "tenantId" = some (Val.str t) ∧
    objGet (paginateWhere params.whereClause t) "tenantId" = some (Val.str t) ∧
    (paginate db params t).data.all (fun r => decide (r.tenantId = t)) = true := by
  have hpw : objGet (paginateWhere params.whereClause t) "tenantId" =
      some (Val.str t) := by
    rw [paginateWhere, objGet_objSet_ne _ _ _ _ (by decide)]
    exact objGet_objSet_self _ _ _
  refine ⟨objGet_objSet_self _ _ _, hpw, ?_⟩
  rw [List.all_eq_true]
  intro r hr
  have hm : matchesWhere (paginateWhere params.whereClause t) r = true := by
    simp only [paginate, findMany] at hr
    have h1 := (List.take_sublist _ _).subset hr
    have h2 := (List.drop_sublist _ _).subset h1
    have h3 := mem_sortDesc.mp h2
    exact (List.mem_filter.mp h3).2
  have hkv : ("tenantId", Val.str t) ∈ paginateWhere params.whereClause t :=
    objGet_some_mem hpw
  have hv := matchesWhere_mem hm hkv
  simp only [valMatches, rowGet_tenantId, decide_eq_true_eq,
    Option.some.injEq, Val.str.injEq] at hv
  simpa using hv

/-- C3: `hasPermission` returns true iff the permission set has a
universal entry whose action list holds the wildcard, or the resource's
entry exists and holds the action or the wildcard; in particular every
pair neither granted nor wildcard-covered is denied. -/
theorem hasPermission_iff (P : PermSet) (r a : String) :
    hasPermission (some P) r a = true ↔
      ((∃ star, permLookup P "*" = some star ∧ "*" ∈ star) ∨
       (∃ acts, permLookup P r = some acts ∧ (a ∈ acts ∨ "*" ∈ acts))) := by
  unfold hasPermission
  rcases hstar : permLookup P "*" with _ | star
  · rcases hres : permLookup P r with _ | acts
    · simp [hstar, hres]
    · simp [hstar, hres]
  · rcases hres : permLookup P r with _ | acts
    · simp [hstar, hres]
    · by_cases hs : ("*" : String) ∈ star
      · simp [hstar, hres, hs]
      · simp [hstar, hres, hs]

/-- C10: a null or undefined permission set always denies: for every
resource and action, `hasPermission` applied to `none` returns false and
in particular never fails. -/
theorem hasPermission_null_denies (r a : String) :
    hasPermission none r a = false := rfl

/-- C5: `createAuditLog` returns normally for every audit entry and every
behaviour of the audit store's append, including failure: the error is
swallowed and never propagates to the caller. -/
theorem createAuditLog_never_fails (append : AuditEntry → Except String Unit)
    (input : AuditLogInput) : createAuditLog append input = Except.ok () := by
  unfold createAuditLog
  cases append _ with
  | ok u => rfl
  | error e => rfl

/-- C8: round-trip — verifying a freshly issued token before its expiry
succeeds and returns exactly the claims that were signed (userId,
tenantId, roleId and email). -/
theorem token_round_trip (payload : TokenPayload) (issuedAt now : Int)
    (h : now < issuedAt + JWT_EXPIRES_IN) :
    verifyToken now (generateToken issuedAt payload) = Except.ok payload := by
  have hexp : ¬(issuedAt + JWT_EXPIRES_IN ≤ now) := by omega
  simp [verifyToken, generateToken, jwtSign, jwtVerify, hexp]

theorem token_round_trip_witness :
    (0 : Int) < 0 + JWT_EXPIRES_IN ∧
    verifyToken 0 (generateToken 0 payload0) = Except.ok payload0 :=
  ⟨by norm_num [JWT_EXPIRES_IN],
   token_round_trip payload0 0 0 (by norm_num [JWT_EXPIRES_IN])⟩

/-- C9: every token the JWT layer rejects — malformed, invalid signature,
or expired — makes `verifyToken` fail closed with the single generic
error message, never distinguishing the cause. -/
theorem verifyToken_generic_error (now : Int) (token : Token) (e : JwtError)
    (h : jwtVerify JWT_SECRET now token = Except.error e) :
    verifyToken now token = Except.error "Invalid or expired token" := by
  unfold verifyToken
  rw [h]

theorem verifyToken_generic_error_witness :
    jwtVerify JWT_SECRET 0 (Token.malformed "xx") =
      Except.error JwtError.malformed ∧
    verifyToken 0 (Token.malformed "xx") =
      Except.error "Invalid or expired token" :=
  ⟨rfl, verifyToken_generic_error 0 (Token.malformed "xx") JwtError.malformed rfl⟩

/-- C4: for every token whose claims validate, `getUserByToken` returns a
non-null user exactly when a user with the claimed id exists in the
claimed tenant and is active; in every other case it returns null, and a
returned user carries the claimed id and tenant. -/
theorem getUserByToken_requires_active_tenant_match (db : List User)
    (now : Int) (token : Token) (payload : TokenPayload)
    (hv : verifyToken now token = Except.ok payload) :
    ((getUserByToken db now token).isSome = true ↔
      ∃ u ∈ db, u.id = payload.userId ∧ u.tenantId = payload.tenantId ∧
        u.isActive = true) ∧
    (∀ au, getUserByToken db now token = some au →
      au.id = payload.userId ∧ au.tenantId = payload.tenantId) := by
  unfold getUserByToken
  rw [hv]
  rcases hf : db.find? (fun u =>
      decide (u.id = payload.userId) &&
      decide (u.tenantId = payload.tenantId) && u.isActive) with _ | u
  · simp only [hf]
    rw [List.find?_eq_none] at hf
    constructor
    · constructor
      · intro h
        simp at h
      · rintro ⟨u, hu, h1, h2, h3⟩
        have h4 := hf u hu
        simp [h1, h2, h3] at h4
    · intro au h
      cases h
  · simp only [hf]
    have hp := List.find?_some hf
    have hmem := List.mem_of_find?_eq_some hf
    simp only [Bool.and_eq_true, decide_eq_true_eq] at hp
    constructor
    · simp only [Option.isSome_some, true_iff]
      exact ⟨u, hmem, hp.1.1, hp.1.2, hp.2⟩
    · intro au h
      injection h with h
      subst h
      exact ⟨hp.1.1, hp.1.2⟩

theorem getUserByToken_requires_active_tenant_match_witness :
    verifyToken 0 token0 = Except.ok payload0 ∧
    (((getUserByToken [user0] 0 token0).isSome = true ↔
       ∃ u ∈ [user0], u.id = payload0.userId ∧
         u.tenantId = payload0.tenantId ∧ u.isActive = true) ∧
     (∀ au, getUserByToken [user0] 0 token0 = some au →
       au.id = payload0.userId ∧ au.tenantId = payload0.tenantId)) :=
  ⟨rfl, getUserByToken_requires_active_tenant_match [user0] 0 token0 payload0 rfl⟩

/-- C2 (counterexample): a caller whose role's permission set denies
every resource/action pair — the permission model returns deny for
(accounts, read) — still drives the accounts GET handler all the way to
the data operation and a 200 response: the handler consults no
permission model and never answers Forbidden. -/
theorem accounts_get_skips_permission_check :
    getUserByToken [user0] 0 token0 = some authUser0 ∧
    canAccessResource authUser0 "accounts" "read" = false ∧
    isOkResponse (accountsGET [user0] [rowA] 0 denyReq) = true ∧
    accountsGET [user0] [rowA] 0 denyReq ≠ GetResponse.forbidden := by
  refine ⟨rfl, rfl, rfl, ?_⟩
  decide

/-- C2 (amended): the accounts handlers gate the data operation on
authentication only: an authentication failure short-circuits before any
data access (the GET response does not depend on the accounts store, and
the POST catch block maps the failure to 401 or 500), while a successful
authentication always reaches the data operation regardless of the
caller's role permissions; neither handler ever produces a Forbidden
response, because no permission check is performed. -/
theorem accounts_handlers_auth_only (db : List User)
    (accounts accounts2 : List Row) (now : Int) (req : GetRequest)
    (preq : PostRequest) (newId : String)
    (append : AuditEntry → Except String Unit) :
    (∀ msg, authenticate db now req.token = Except.error msg →
      accountsGET db accounts now req = GetResponse.unauthorized msg ∧
      accountsGET db accounts now req = accountsGET db accounts2 now req) ∧
    (∀ user, authenticate db now req.token = Except.ok user →
      accountsGET db accounts now req =
        GetResponse.ok (paginate accounts (accountsGetParams req) user.tenantId)) ∧
    accountsGET db accounts now req ≠ GetResponse.forbidden ∧
    (∀ msg, authenticate db now preq.token = Except.error msg →
      accountsPOST db now preq newId append =
        (if strContains msg "Authentication" then PostResponse.unauthorized msg
        else PostResponse.serverError)) ∧
    accountsPOST db now preq newId append ≠ PostResponse.forbidden := by
  refine ⟨?_, ?_, ?_, ?_, ?_⟩
  · intro msg h
    constructor <;> simp [accountsGET, h]
  · intro user h
    simp [accountsGET, h]
  · rcases h : authenticate db now req.token with msg | user <;>
      simp [accountsGET, h]
  · intro msg h
    simp [accountsPOST, h]
  · rcases h : authenticate db now preq.token with msg | user
    · simp only [accountsPOST, h]
      split <;> simp
    · simp only [accountsPOST, h]
      rcases hp : parseCreateAccount preq.body with e | d <;> simp [hp]

theorem accounts_handlers_auth_only_witness :
    accountsGET [] [] 0 reqNoToken =
      GetResponse.unauthorized "Authentication required" ∧
    accountsGET [] [] 0 reqNoToken = accountsGET [] [rowA] 0 reqNoToken :=
  (accounts_handlers_auth_only [] [] [rowA] 0 reqNoToken postNoToken "a1"
    (fun _ => Except.ok ())).1 "Authentication required" rfl

/-- C6 (counterexample): with the integer limit -5 supplied, `paginate`
uses -5 as the effective limit: the limit is not clamped below to 1, so
the claimed interval [1,100] fails for negative limits. -/
theorem paginate_limit_not_clamped_below :
    (paginate [] negLimitParams "t1").meta.limit = -5 ∧
    ¬(1 ≤ (paginate [] negLimitParams "t1").meta.limit) := by
  refine ⟨rfl, ?_⟩
  decide

/-- C6 (amended): for page `p ≥ 1` and limit `l ≥ 1` the effective limit
is `min l 100`, which lies in [1,100] (only the upper bound is enforced
in general; `l = 0` falls back to 10 and negative limits pass through),
the result skips `(p-1)·limit` ordered rows and returns at most `limit`
of them, and the meta block satisfies `totalPages = ceil(total/limit)`,
`hasNext = (page < totalPages)` and `hasPrev = (page > 1)`; in particular
page 3 with limit 10 against 25 matching rows yields 5 items,
totalPages 3, hasNext false, hasPrev true. -/
theorem paginate_contract (db : List Row) (params : PaginateParams)
    (t : String) (p l : Int) (hpage : params.page = some p)
    (hlimit : params.limit = some l) (hp : 1 ≤ p) (hl : 1 ≤ l) :
    paginateContract db params t p l ∧
    ((paginate db25 pageParams3 "t1").data.length = 5 ∧
     (paginate db25 pageParams3 "t1").meta.totalPages = 3 ∧
     (paginate db25 pageParams3 "t1").meta.hasNext = false ∧
     (paginate db25 pageParams3 "t1").meta.hasPrev = true) := by
  constructor
  · have hP : jsOr params.page 1 = p := by
      rw [hpage, jsOr, if_neg (by omega)]
    have hL : jsOr params.limit 10 = l := by
      rw [hlimit, jsOr, if_neg (by omega)]
    have hlim1 : 1 ≤ min l 100 := le_min hl (by norm_num)
    have e1 : (paginate db params t).meta.page = p := by
      simp [paginate, hP]
    have e2 : (paginate db params t).meta.limit = min l 100 := by
      simp [paginate, hL]
    have e3 : 1 ≤ (paginate db params t).meta.limit := by
      rw [e2]; exact hlim1
    have e4 : (paginate db params t).meta.limit ≤ 100 := by
      rw [e2]; exact min_le_right _ _
    have e5 : (paginate db params t).data.length ≤
        (paginate db params t).meta.limit.toNat := by
      simp only [paginate, hP, hL]
      exact List.length_take_le _ _
    have e6 : (paginate db params t).data =
        ((sortDesc (sortKey (params.orderBy.getD OrderBy.createdAtDesc))
            (db.filter (fun row =>
              matchesWhere (paginateWhere params.whereClause t) row))).drop
          (((paginate db params t).meta.page - 1) *
            (paginate db params t).meta.limit).toNat).take
          (paginate db params t).meta.limit.toNat := by
      simp only [paginate, findMany, hP, hL]
    have e7 : (paginate db params t).meta.total =
        countWhere db (paginateWhere params.whereClause t) := by
      simp [paginate]
    have e8 : (paginate db params t).meta.totalPages =
        ceilDiv (paginate db params t).meta.total
          (paginate db params t).meta.limit := by
      simp [paginate]
    have e9 : (paginate db params t).meta.hasNext = true ↔
        (paginate db params t).meta.page <
          (paginate db params t).meta.totalPages := by
      simp [paginate]
    have e10 : (paginate db params t).meta.hasPrev = true ↔
        1 < (paginate db params t).meta.page := by
      simp [paginate]
    exact ⟨e1, e2, e3, e4, e5, e6, e7, e8, e9, e10⟩
  · exact ⟨rfl, rfl, rfl, rfl⟩

theorem paginate_contract_witness :
    (1 : Int) ≤ 1 ∧
    (paginateContract []
        { page := some 1, limit := some 1, whereClause := [],
          orderBy := none } "t" 1 1 ∧
     ((paginate db25 pageParams3 "t1").data.length = 5 ∧
      (paginate db25 pageParams3 "t1").meta.totalPages = 3 ∧
      (paginate db25 pageParams3 "t1").meta.hasNext = false ∧
      (paginate db25 pageParams3 "t1").meta.hasPrev = true)) :=
  ⟨by norm_num,
   paginate_contract []
     { page := some 1, limit := some 1, whereClause := [], orderBy := none }
     "t" 1 1 rfl rfl (by norm_num) (by norm_num)⟩

/-- C7 (counterexample): with no ordering supplied, `paginate` returns
rows most-recently-created first, not most-recently-updated first: two
rows whose creation order and update order disagree come back in
creation order, violating descending-by-updatedAt. -/
theorem default_order_not_updatedAt :
    (paginate [rowA, rowB] defaultOrderParams "t1").data.map Row.id =
      ["A", "B"] ∧
    ¬ List.Pairwise (fun a b => b.updatedAt ≤ a.updatedAt)
        (paginate [rowA, rowB] defaultOrderParams "t1").data := by
  refine ⟨rfl, ?_⟩
  decide

/-- C7 (amended): for every call to `paginate` in which the caller
supplies no ordering, the results are ordered most-recently-CREATED
first (descending by the created-at timestamp). -/
theorem paginate_default_order_createdAt (db : List Row)
    (params : PaginateParams) (t : String) (h : params.orderBy = none) :
    List.Pairwise (fun a b => b.createdAt ≤ a.createdAt)
      (paginate db params t).data := by
  have hp := pairwise_findMany db (paginateWhere params.whereClause t)
    OrderBy.createdAtDesc
    ((jsOr params.page 1 - 1) * min (jsOr params.limit 10) 100)
    (min (jsOr params.limit 10) 100)
  simp only [paginate, h, Option.getD_none]
  simpa [sortKey] using hp

theorem paginate_default_order_createdAt_witness :
    List.Pairwise (fun a b => b.createdAt ≤ a.createdAt)
      (paginate [rowA, rowB] defaultOrderParams "t1").data :=
  paginate_default_order_createdAt [rowA, rowB] defaultOrderParams "t1" rfl

end CRM
